import Mathlib

/-!
Verification development for the `smk` Smacker-video header decoder.

The Go sources (`smk.go`, `header.go`) are shallowly embedded here:

* Byte streams are `List Nat` whose entries are bytes (`< 256`).
* `struc.Unpack` applied to the `FileHeader` struct tags (the byte-layout
  decoder) is modelled by `smk.unpackFileHeader`, an explicit sequential
  little-endian reader.
* `parseFileHeader`, `Parse` and `File.Close` follow the Go functions.
* The pure bitfield accessors (`TrackInfo`, `FrameRate.FPS`, the
  `FrameType` constants) are translated directly; Go's `float64` frame
  rate is modelled by `ℚ`.
-/

namespace smk

/-- Decode failures of the header decoder: the stream ended before the
layout was fully read, or the decoded signature is unrecognized. -/
inductive Error where
  | truncated : Error
  | invalidSignature (got : List Nat) : Error
deriving DecidableEq, Repr

/-- Read `n` raw bytes from the stream. -/
def readBytes : Nat → List Nat → Except Error (List Nat × List Nat)
  | 0, bs => .ok ([], bs)
  | _ + 1, [] => .error .truncated
  | n + 1, b :: bs => readBytes n bs >>= fun p => .ok (b :: p.1, p.2)

/-- Read one little-endian unsigned 32-bit integer. -/
def readU32 : List Nat → Except Error (Nat × List Nat)
  | b0 :: b1 :: b2 :: b3 :: rest =>
    .ok (b0 + 2 ^ 8 * b1 + 2 ^ 16 * b2 + 2 ^ 24 * b3, rest)
  | _ => .error .truncated

/-- Read one little-endian signed 32-bit integer (two's complement). -/
def readI32 (bs : List Nat) : Except Error (Int × List Nat) :=
  readU32 bs >>= fun p =>
    .ok (if p.1 < 2 ^ 31 then (p.1 : Int) else (p.1 : Int) - 2 ^ 32, p.2)

/-- Read `n` little-endian unsigned 32-bit integers. -/
def readU32s : Nat → List Nat → Except Error (List Nat × List Nat)
  | 0, bs => .ok ([], bs)
  | n + 1, bs =>
    readU32 bs >>= fun p => readU32s n p.2 >>= fun q => .ok (p.1 :: q.1, q.2)

/-- The decoded general file description header (Go struct `FileHeader`).
Unsigned 32-bit fields are carried as `Nat`, the signed `FrameRate` as
`Int`, and the 4-byte signature as the list of its bytes. -/
structure FileHeader where
  signature : List Nat
  width : Nat
  height : Nat
  nFrames : Nat
  frameRate : Int
  flags : Nat
  audioSize : List Nat
  treesSize : Nat
  mmapSize : Nat
  mclrSize : Nat
  fullSize : Nat
  typeSize : Nat
  trackInfo : List Nat
  frameSizes : List Nat
  frameTypes : List Nat
deriving DecidableEq, Repr

/-- Modelled from the spec: the third-party `struc.Unpack` byte-layout
decoder invoked by `parseFileHeader` is not part of this repository, so
its behaviour on the `FileHeader` struct tags is modelled from §4.2 of
the specification: strict field order, little-endian multi-byte integers,
two fixed 7-element `uint32` arrays, 4 discarded padding bytes, then
`nFrames` unsigned 32-bit frame sizes and `nFrames` frame-type bytes. -/
def unpackFileHeader (bs : List Nat) : Except Error (FileHeader × List Nat) := do
  let (signature, bs) ← readBytes 4 bs
  let (width, bs) ← readU32 bs
  let (height, bs) ← readU32 bs
  let (nFrames, bs) ← readU32 bs
  let (frameRate, bs) ← readI32 bs
  let (flags, bs) ← readU32 bs
  let (audioSize, bs) ← readU32s 7 bs
  let (treesSize, bs) ← readU32 bs
  let (mmapSize, bs) ← readU32 bs
  let (mclrSize, bs) ← readU32 bs
  let (fullSize, bs) ← readU32 bs
  let (typeSize, bs) ← readU32 bs
  let (trackInfo, bs) ← readU32s 7 bs
  let (_pad, bs) ← readU32 bs
  let (frameSizes, bs) ← readU32s nFrames bs
  let (frameTypes, bs) ← readBytes nFrames bs
  .ok ({ signature, width, height, nFrames, frameRate, flags, audioSize,
         treesSize, mmapSize, mclrSize, fullSize, typeSize, trackInfo,
         frameSizes, frameTypes }, bs)

/-- The bytes of the signature literal "SMK2". -/
def smk2Signature : List Nat := [0x53, 0x4D, 0x4B, 0x32]

/-- The bytes of the signature literal "SMK4". -/
def smk4Signature : List Nat := [0x53, 0x4D, 0x4B, 0x34]

/-- `(*File).parseFileHeader` from `header.go`: unpack the layout, then
verify the Smacker signature, rejecting anything but "SMK2"/"SMK4". -/
def parseFileHeader (bs : List Nat) : Except Error (FileHeader × List Nat) :=
  match unpackFileHeader bs with
  | .error e => .error e
  | .ok (h, rest) =>
    if h.signature = smk2Signature ∨ h.signature = smk4Signature then .ok (h, rest)
    else .error (.invalidSignature h.signature)

/-- An attached `io.Closer`: a stateful external object, modelled by the
result its `Close` method returns on its `k`-th invocation (`none` =
success, `some msg` = error). -/
structure Closer where
  closeResult : Nat → Option String

/-- A parsed Smacker container (Go struct `File`): the decoded header,
the remaining undecoded bytes of the reader, and the reader's optional
`io.Closer`. -/
structure File where
  header : FileHeader
  rest : List Nat
  c : Option Closer

/-- `Parse` from `smk.go`: parse the file header from the reader's bytes
and return a `File`; the reader's closer, when it has one, is attached. -/
def Parse (bs : List Nat) (c : Option Closer) : Except Error File :=
  match parseFileHeader bs with
  | .error e => .error e
  | .ok (h, rest) => .ok { header := h, rest := rest, c := c }

/-- `(*File).Close` from `smk.go`: delegate the `k`-th close call to the
attached closer when present, and do nothing (returning success)
otherwise. -/
def File.Close (f : File) (k : Nat) : Option String :=
  match f.c with
  | some c => c.closeResult k
  | none => none

/-- Raw 32-bit audio track descriptor (Go type `TrackInfo`). -/
abbrev TrackInfo := Nat

/-- `TrackInfo.SampleRate`: bits 23-0, the audio sample rate. -/
def TrackInfo.SampleRate (info : TrackInfo) : Nat := info &&& 0xFFFFFF

/-- `TrackInfo.BitRate`: 16-bit audio when bit 29 is set, else 8-bit. -/
def TrackInfo.BitRate (info : TrackInfo) : Nat :=
  if info &&& 0x20000000 ≠ 0 then 16 else 8

/-- `TrackInfo.NChannels`: stereo (2) when bit 28 is set, else mono (1). -/
def TrackInfo.NChannels (info : TrackInfo) : Nat :=
  if info &&& 0x10000000 ≠ 0 then 2 else 1

/-- `TrackInfo.HasAudioData`: bit 30 marks audio data present. -/
def TrackInfo.HasAudioData (info : TrackInfo) : Bool :=
  info &&& 0x40000000 ≠ 0

/-- `TrackInfo.IsCompressed`: bit 31 marks compressed audio data. -/
def TrackInfo.IsCompressed (info : TrackInfo) : Bool :=
  info &&& 0x80000000 ≠ 0

/-- `TrackInfo.IsVersion2`: v2 sound decompression iff bits 27-26 are
both zero. -/
def TrackInfo.IsVersion2 (info : TrackInfo) : Bool :=
  info &&& 0xC000000 == 0

/-- Raw signed 32-bit frame rate (Go type `FrameRate`). -/
abbrev FrameRate := Int

/-- `FrameRate.FPS` from `header.go`; Go's `float64` arithmetic is
modelled by exact rational arithmetic. -/
def FrameRate.FPS (rate : FrameRate) : ℚ :=
  if rate > 0 then 1000 / (rate : ℚ)
  else if rate < 0 then 100000 / (-(rate : ℚ))
  else 10

/-- Raw 8-bit frame type bitmask (Go type `FrameType`). -/
abbrev FrameType := Nat

/-- Bit 0: the frame contains a palette record. -/
def FrameTypePaletteRecord : FrameType := 1

/-- Bit 1: the frame contains audio data for track 0. -/
def FrameTypeAudioDataTrack0 : FrameType := 2

/-- Bit 2: the frame contains audio data for track 1. -/
def FrameTypeAudioDataTrack1 : FrameType := 4

/-- Bit 3: the frame contains audio data for track 2. -/
def FrameTypeAudioDataTrack2 : FrameType := 8

/-- Bit 4: the frame contains audio data for track 3. -/
def FrameTypeAudioDataTrack3 : FrameType := 16

/-- Bit 5: the frame contains audio data for track 4. -/
def FrameTypeAudioDataTrack4 : FrameType := 32

/-- Bit 6: the frame contains audio data for track 5. -/
def FrameTypeAudioDataTrack5 : FrameType := 64

/-- Bit 7: the frame contains audio data for track 6. -/
def FrameTypeAudioDataTrack6 : FrameType := 128

/-- The audio-data frame-type constant for track `N`, `N` in `0..6`. -/
def FrameTypeAudioDataTrack : Fin 7 → FrameType
  | 0 => FrameTypeAudioDataTrack0
  | 1 => FrameTypeAudioDataTrack1
  | 2 => FrameTypeAudioDataTrack2
  | 3 => FrameTypeAudioDataTrack3
  | 4 => FrameTypeAudioDataTrack4
  | 5 => FrameTypeAudioDataTrack5
  | 6 => FrameTypeAudioDataTrack6

/-! ### The §4.2 byte layout as an encoder, for the round-trip claim -/

/-- The little-endian 32-bit value carried by the first four bytes of a
stream (`0` when fewer than four bytes remain). -/
def le32 : List Nat → Nat
  | b0 :: b1 :: b2 :: b3 :: _ => b0 + 2 ^ 8 * b1 + 2 ^ 16 * b2 + 2 ^ 24 * b3
  | _ => 0

/-- Little-endian bytes of an unsigned 32-bit value. -/
def encodeU32 (x : Nat) : List Nat :=
  [x % 2 ^ 8, x / 2 ^ 8 % 2 ^ 8, x / 2 ^ 16 % 2 ^ 8, x / 2 ^ 24 % 2 ^ 8]

/-- Little-endian two's-complement bytes of a signed 32-bit value. -/
def encodeI32 (x : Int) : List Nat := encodeU32 (x % 2 ^ 32).toNat

/-- Concatenated little-endian bytes of a list of 32-bit values. -/
def encodeU32s : List Nat → List Nat
  | [] => []
  | x :: xs => encodeU32 x ++ encodeU32s xs

/-- The §4.2 byte layout built from the field values of a header:
4 signature bytes, the little-endian fixed fields, the two 7-element
arrays, 4 padding bytes, then `nFrames` 32-bit frame sizes and `nFrames`
frame-type bytes. -/
def encodeFileHeader (h : FileHeader) : List Nat :=
  h.signature ++ encodeU32 h.width ++ encodeU32 h.height ++ encodeU32 h.nFrames ++
  encodeI32 h.frameRate ++ encodeU32 h.flags ++ encodeU32s h.audioSize ++
  encodeU32 h.treesSize ++ encodeU32 h.mmapSize ++ encodeU32 h.mclrSize ++
  encodeU32 h.fullSize ++ encodeU32 h.typeSize ++ encodeU32s h.trackInfo ++
  encodeU32 0 ++ encodeU32s h.frameSizes ++ h.frameTypes

/-- The header field values representable in the §4.2 layout: a 4-byte
signature, 32-bit unsigned fields, a signed 32-bit frame rate, 7-element
arrays, and `nFrames`-length frame arrays. -/
def WellFormed (h : FileHeader) : Prop :=
  h.signature.length = 4 ∧ (∀ b ∈ h.signature, b < 2 ^ 8) ∧
  h.width < 2 ^ 32 ∧ h.height < 2 ^ 32 ∧ h.nFrames < 2 ^ 32 ∧
  -(2 ^ 31) ≤ h.frameRate ∧ h.frameRate < 2 ^ 31 ∧ h.flags < 2 ^ 32 ∧
  h.audioSize.length = 7 ∧ (∀ x ∈ h.audioSize, x < 2 ^ 32) ∧
  h.treesSize < 2 ^ 32 ∧ h.mmapSize < 2 ^ 32 ∧ h.mclrSize < 2 ^ 32 ∧
  h.fullSize < 2 ^ 32 ∧ h.typeSize < 2 ^ 32 ∧
  h.trackInfo.length = 7 ∧ (∀ x ∈ h.trackInfo, x < 2 ^ 32) ∧
  h.frameSizes.length = h.nFrames ∧ (∀ x ∈ h.frameSizes, x < 2 ^ 32) ∧
  h.frameTypes.length = h.nFrames ∧ (∀ b ∈ h.frameTypes, b < 2 ^ 8)

/-- Predicate: an `Except` result that, when it is an error, is the
truncation error. -/
def OnlyTruncated {α : Type} : Except Error α → Prop
  | .ok _ => True
  | .error e => e = .truncated

/-! ### Concrete streams and headers used as witnesses -/

/-- A minimal valid stream: "SMK2" then 100 zero bytes (`nFrames = 0`). -/
def goodBytes : List Nat := smk2Signature ++ List.replicate 100 0

/-- The header decoded from `goodBytes`. -/
def goodHeader : FileHeader :=
  { signature := smk2Signature, width := 0, height := 0, nFrames := 0,
    frameRate := 0, flags := 0, audioSize := [0, 0, 0, 0, 0, 0, 0],
    treesSize := 0, mmapSize := 0, mclrSize := 0, fullSize := 0, typeSize := 0,
    trackInfo := [0, 0, 0, 0, 0, 0, 0], frameSizes := [], frameTypes := [] }

/-- A 104-byte all-zero stream: full layout, unrecognized signature. -/
def zeroBytes : List Nat := List.replicate 104 0

/-- The header carried by `zeroBytes` before signature validation. -/
def zeroHeader : FileHeader := { goodHeader with signature := [0, 0, 0, 0] }

/-- A 103-byte stream: one byte short of the minimal layout. -/
def shortBytes : List Nat := List.replicate 103 0

/-- A representative well-formed header with two frames, used to witness
the round-trip claim. -/
def sampleHeader : FileHeader :=
  { signature := smk2Signature, width := 320, height := 200, nFrames := 2,
    frameRate := -100000, flags := 1, audioSize := [1, 2, 3, 4, 5, 6, 7],
    treesSize := 8, mmapSize := 9, mclrSize := 10, fullSize := 11, typeSize := 12,
    trackInfo := [0xC0000000, 0x3000FFFF, 0, 0, 0, 0, 0],
    frameSizes := [100, 200], frameTypes := [1, 0x82] }

/-- A closer behaving like an operating-system file handle: the first
close succeeds, every later close reports the handle already closed. -/
def fileLikeCloser : Closer :=
  { closeResult := fun k => if k = 0 then none else some "file already closed" }

/-- A `File` holding `fileLikeCloser` as its attached resource. -/
def sampleClosedFile : File :=
  { header := goodHeader, rest := [], c := some fileLikeCloser }

/-! ### Reader lemmas -/

/-- Bind on a successful `Except` computation reduces. -/
theorem except_bind_ok {α β : Type} (a : α) (f : α → Except Error β) :
    ((Except.ok a : Except Error α) >>= f) = f a := rfl

/-- Bind on a failed `Except` computation propagates the failure. -/
theorem except_bind_error {α β : Type} (e : Error) (f : α → Except Error β) :
    ((Except.error e : Except Error α) >>= f) = Except.error e := rfl

/-- Reading exactly the length of a prefix returns that prefix. -/
theorem readBytes_of_length (n : Nat) (xs rest : List Nat) (hn : xs.length = n) :
    readBytes n (xs ++ rest) = .ok (xs, rest) := by
  induction xs generalizing n with
  | nil => subst hn; rfl
  | cons b t ih =>
    subst hn
    simp only [List.cons_append, List.length_cons, readBytes, List.append_eq]
    rw [ih t.length rfl, except_bind_ok]

/-- Reading exactly a whole stream returns it and leaves nothing. -/
theorem readBytes_all (n : Nat) (xs : List Nat) (hn : xs.length = n) :
    readBytes n xs = .ok (xs, []) := by
  have := readBytes_of_length n xs [] hn
  rwa [List.append_nil] at this

/-- Decoding the little-endian encoding of a 32-bit value recovers it. -/
theorem readU32_encodeU32 (x : Nat) (rest : List Nat) (hx : x < 2 ^ 32) :
    readU32 (encodeU32 x ++ rest) = .ok (x, rest) := by
  simp only [encodeU32, List.cons_append, List.nil_append, readU32, Except.ok.injEq,
    Prod.mk.injEq, and_true]
  omega

/-- Decoding the two's-complement encoding of a signed 32-bit value
recovers it. -/
theorem readI32_encodeI32 (x : Int) (rest : List Nat) (hlo : -(2 ^ 31) ≤ x)
    (hhi : x < 2 ^ 31) :
    readI32 (encodeI32 x ++ rest) = .ok (x, rest) := by
  have hu : (x % 2 ^ 32).toNat < 2 ^ 32 := by omega
  rw [readI32, encodeI32, readU32_encodeU32 _ _ hu, except_bind_ok]
  rcases le_or_lt 0 x with hx0 | hx0
  · have hm : (x % 2 ^ 32).toNat = x.toNat := by omega
    have hlt : x.toNat < 2 ^ 31 := by omega
    rw [hm, if_pos hlt, Int.toNat_of_nonneg hx0]
  · have hm : (x % 2 ^ 32).toNat = (x + 2 ^ 32).toNat := by omega
    have hge : ¬(x + 2 ^ 32).toNat < 2 ^ 31 := by omega
    have hc : ((x + 2 ^ 32).toNat : Int) = x + 2 ^ 32 := by omega
    rw [hm, if_neg hge, hc]
    have : x + 2 ^ 32 - 2 ^ 32 = x := by ring
    rw [this]

/-- Decoding the concatenated encodings of `n` 32-bit values recovers
them. -/
theorem readU32s_of_length (n : Nat) (xs rest : List Nat) (hn : xs.length = n)
    (hx : ∀ x ∈ xs, x < 2 ^ 32) :
    readU32s n (encodeU32s xs ++ rest) = .ok (xs, rest) := by
  induction xs generalizing n with
  | nil => subst hn; rfl
  | cons x t ih =>
    subst hn
    have hx0 : x < 2 ^ 32 := hx x (List.mem_cons_self x t)
    have hxt : ∀ y ∈ t, y < 2 ^ 32 := fun y hy => hx y (List.mem_cons_of_mem x hy)
    simp only [encodeU32s, List.append_assoc, List.length_cons, readU32s]
    rw [readU32_encodeU32 x _ hx0, except_bind_ok, ih t.length rfl hxt, except_bind_ok]

/-- A successful `readBytes` returns a prefix of the requested length
and the matching suffix. -/
theorem readBytes_ok (n : Nat) (bs xs rest : List Nat)
    (h : readBytes n bs = .ok (xs, rest)) : xs.length = n ∧ bs = xs ++ rest := by
  induction n generalizing bs xs rest with
  | zero =>
    simp only [readBytes, Except.ok.injEq, Prod.mk.injEq] at h
    obtain ⟨rfl, rfl⟩ := h
    exact ⟨rfl, rfl⟩
  | succ n ih =>
    cases bs with
    | nil => simp [readBytes] at h
    | cons b t =>
      unfold readBytes at h
      cases hr : readBytes n t with
      | error e => rw [hr, except_bind_error] at h; simp at h
      | ok p =>
        rw [hr, except_bind_ok] at h
        obtain ⟨h1, h2⟩ : b :: p.1 = xs ∧ p.2 = rest := by simpa using h
        obtain ⟨hl, happ⟩ := ih t p.1 p.2 hr
        subst h1; subst h2
        simp [hl, happ]

/-- A successful `readU32` consumed exactly four bytes and combined them
little-endian. -/
theorem readU32_ok (bs : List Nat) (x : Nat) (rest : List Nat)
    (h : readU32 bs = .ok (x, rest)) :
    ∃ b0 b1 b2 b3, bs = b0 :: b1 :: b2 :: b3 :: rest ∧
      x = b0 + 2 ^ 8 * b1 + 2 ^ 16 * b2 + 2 ^ 24 * b3 := by
  unfold readU32 at h
  split at h
  · next b0 b1 b2 b3 t =>
    obtain ⟨hx, ht⟩ : b0 + 2 ^ 8 * b1 + 2 ^ 16 * b2 + 2 ^ 24 * b3 = x ∧ t = rest := by
      simpa using h
    exact ⟨b0, b1, b2, b3, by rw [ht], hx.symm⟩
  · simp at h

/-- A successful `readI32` is a successful `readU32` on the same bytes. -/
theorem readI32_ok (bs : List Nat) (x : Int) (rest : List Nat)
    (h : readI32 bs = .ok (x, rest)) : ∃ u, readU32 bs = .ok (u, rest) := by
  unfold readI32 at h
  cases hr : readU32 bs with
  | error e => rw [hr, except_bind_error] at h; simp at h
  | ok p =>
    obtain ⟨u, r2⟩ := p
    rw [hr, except_bind_ok] at h
    obtain ⟨-, h2⟩ : _ ∧ r2 = rest := by simpa using h
    exact ⟨u, by rw [h2]⟩

/-- A successful `readU32s` returns `n` values, consumed `4 * n` bytes,
left a suffix of the input, and its values are 32-bit bounded whenever
the input entries are bytes. -/
theorem readU32s_ok (n : Nat) (bs xs rest : List Nat)
    (h : readU32s n bs = .ok (xs, rest)) :
    xs.length = n ∧ bs.length = 4 * n + rest.length ∧
    (∀ y ∈ rest, y ∈ bs) ∧
    ((∀ b ∈ bs, b < 2 ^ 8) → ∀ x ∈ xs, x < 2 ^ 32) := by
  induction n generalizing bs xs rest with
  | zero =>
    simp only [readU32s, Except.ok.injEq, Prod.mk.injEq] at h
    obtain ⟨rfl, rfl⟩ := h
    exact ⟨rfl, by omega, fun y hy => hy, fun _ x hx => absurd hx (List.not_mem_nil x)⟩
  | succ n ih =>
    unfold readU32s at h
    cases hr : readU32 bs with
    | error e => rw [hr, except_bind_error] at h; simp at h
    | ok p =>
      rw [hr, except_bind_ok] at h
      cases hs : readU32s n p.2 with
      | error e => rw [hs, except_bind_error] at h; simp at h
      | ok q =>
        rw [hs, except_bind_ok] at h
        obtain ⟨h1, h2⟩ : p.1 :: q.1 = xs ∧ q.2 = rest := by simpa using h
        obtain ⟨b0, b1, b2, b3, hshape, hval⟩ := readU32_ok bs p.1 p.2 hr
        obtain ⟨hl, hlen, hmem, hbound⟩ := ih p.2 q.1 q.2 hs
        subst h1; subst h2
        have hmem' : ∀ y ∈ q.2, y ∈ bs := by
          intro y hy
          rw [hshape]
          simp only [List.mem_cons]
          exact Or.inr (Or.inr (Or.inr (Or.inr (hmem y hy))))
        refine ⟨by simp [hl], ?_, hmem', ?_⟩
        · rw [hshape]
          simp only [List.length_cons]
          omega
        · intro hb x hx
          have hsub : ∀ b ∈ p.2, b ∈ bs := by
            intro b hbm
            rw [hshape]
            simp only [List.mem_cons]
            exact Or.inr (Or.inr (Or.inr (Or.inr hbm)))
          rcases List.mem_cons.mp hx with rfl | hx'
          · have h0 : b0 < 2 ^ 8 := hb b0 (by rw [hshape]; simp)
            have h1' : b1 < 2 ^ 8 := hb b1 (by rw [hshape]; simp)
            have h2' : b2 < 2 ^ 8 := hb b2 (by rw [hshape]; simp)
            have h3 : b3 < 2 ^ 8 := hb b3 (by rw [hshape]; simp)
            omega
          · exact hbound (fun b hbm => hb b (hsub b hbm)) x hx'

/-- `OnlyTruncated` passes through `bind`. -/
theorem onlyTruncated_bind {α β : Type} {e : Except Error α} {f : α → Except Error β}
    (he : OnlyTruncated e) (hf : ∀ a, OnlyTruncated (f a)) : OnlyTruncated (e >>= f) := by
  cases e with
  | ok a => rw [except_bind_ok]; exact hf a
  | error err => rw [except_bind_error]; exact he

/-- `readBytes` fails only by truncation. -/
theorem readBytes_onlyTruncated (n : Nat) (bs : List Nat) :
    OnlyTruncated (readBytes n bs) := by
  induction n generalizing bs with
  | zero => trivial
  | succ n ih =>
    cases bs with
    | nil => exact rfl
    | cons b t => exact onlyTruncated_bind (ih t) fun a => trivial

/-- `readU32` fails only by truncation. -/
theorem readU32_onlyTruncated (bs : List Nat) : OnlyTruncated (readU32 bs) := by
  unfold readU32
  split
  · trivial
  · rfl

/-- `readI32` fails only by truncation. -/
theorem readI32_onlyTruncated (bs : List Nat) : OnlyTruncated (readI32 bs) :=
  onlyTruncated_bind (readU32_onlyTruncated bs) fun _ => trivial

/-- `readU32s` fails only by truncation. -/
theorem readU32s_onlyTruncated (n : Nat) (bs : List Nat) :
    OnlyTruncated (readU32s n bs) := by
  induction n generalizing bs with
  | zero => trivial
  | succ n ih =>
    exact onlyTruncated_bind (readU32_onlyTruncated bs) fun p =>
      onlyTruncated_bind (ih p.2) fun q => trivial

/-- The layout decoder fails only by truncation: its sole validation is
that enough bytes are present. -/
theorem unpackFileHeader_onlyTruncated (bs : List Nat) :
    OnlyTruncated (unpackFileHeader bs) := by
  unfold unpackFileHeader
  refine onlyTruncated_bind (readBytes_onlyTruncated 4 bs) fun p1 => ?_
  obtain ⟨sig, bs1⟩ := p1
  refine onlyTruncated_bind (readU32_onlyTruncated bs1) fun p2 => ?_
  obtain ⟨w, bs2⟩ := p2
  refine onlyTruncated_bind (readU32_onlyTruncated bs2) fun p3 => ?_
  obtain ⟨x, bs3⟩ := p3
  refine onlyTruncated_bind (readU32_onlyTruncated bs3) fun p4 => ?_
  obtain ⟨n, bs4⟩ := p4
  refine onlyTruncated_bind (readI32_onlyTruncated bs4) fun p5 => ?_
  obtain ⟨r, bs5⟩ := p5
  refine onlyTruncated_bind (readU32_onlyTruncated bs5) fun p6 => ?_
  obtain ⟨fl, bs6⟩ := p6
  refine onlyTruncated_bind (readU32s_onlyTruncated 7 bs6) fun p7 => ?_
  obtain ⟨audio, bs7⟩ := p7
  refine onlyTruncated_bind (readU32_onlyTruncated bs7) fun p8 => ?_
  obtain ⟨t1, bs8⟩ := p8
  refine onlyTruncated_bind (readU32_onlyTruncated bs8) fun p9 => ?_
  obtain ⟨t2, bs9⟩ := p9
  refine onlyTruncated_bind (readU32_onlyTruncated bs9) fun p10 => ?_
  obtain ⟨t3, bs10⟩ := p10
  refine onlyTruncated_bind (readU32_onlyTruncated bs10) fun p11 => ?_
  obtain ⟨t4, bs11⟩ := p11
  refine onlyTruncated_bind (readU32_onlyTruncated bs11) fun p12 => ?_
  obtain ⟨t5, bs12⟩ := p12
  refine onlyTruncated_bind (readU32s_onlyTruncated 7 bs12) fun p13 => ?_
  obtain ⟨tracks, bs13⟩ := p13
  refine onlyTruncated_bind (readU32_onlyTruncated bs13) fun p14 => ?_
  obtain ⟨pad, bs14⟩ := p14
  refine onlyTruncated_bind (readU32s_onlyTruncated n bs14) fun p15 => ?_
  obtain ⟨sizes, bs15⟩ := p15
  refine onlyTruncated_bind (readBytes_onlyTruncated n bs15) fun p16 => ?_
  obtain ⟨types, bs16⟩ := p16
  trivial

/-- A list of length four is a four-element literal. -/
theorem length_four_shape (l : List Nat) (h : l.length = 4) :
    ∃ a b c d, l = [a, b, c, d] := by
  rcases l with _ | ⟨a, _ | ⟨b, _ | ⟨c, _ | ⟨d, _ | ⟨e, t⟩⟩⟩⟩⟩
  · simp at h
  · simp at h
  · simp at h
  · simp at h
  · exact ⟨a, b, c, d, rfl⟩
  · simp at h

/-- Everything a successful unpack guarantees: the stream length matches
the layout (`104 + 5 * nFrames` consumed bytes), `nFrames` is the
little-endian word at offset 12, both 7-element arrays have length 7,
both frame arrays have length `nFrames`, and every unsigned 32-bit field
is `< 2 ^ 32` whenever the stream entries are bytes. -/
theorem unpackFileHeader_ok_facts (bs : List Nat) (hh : FileHeader) (rest : List Nat)
    (hu : unpackFileHeader bs = .ok (hh, rest)) :
    bs.length = 104 + 5 * hh.nFrames + rest.length ∧
    hh.nFrames = le32 (bs.drop 12) ∧
    hh.audioSize.length = 7 ∧ hh.trackInfo.length = 7 ∧
    hh.frameSizes.length = hh.nFrames ∧ hh.frameTypes.length = hh.nFrames ∧
    ((∀ b ∈ bs, b < 2 ^ 8) →
      hh.width < 2 ^ 32 ∧ hh.height < 2 ^ 32 ∧ hh.nFrames < 2 ^ 32 ∧
      hh.flags < 2 ^ 32 ∧ (∀ x ∈ hh.audioSize, x < 2 ^ 32) ∧
      hh.treesSize < 2 ^ 32 ∧ hh.mmapSize < 2 ^ 32 ∧ hh.mclrSize < 2 ^ 32 ∧
      hh.fullSize < 2 ^ 32 ∧ hh.typeSize < 2 ^ 32 ∧
      (∀ x ∈ hh.trackInfo, x < 2 ^ 32) ∧ (∀ x ∈ hh.frameSizes, x < 2 ^ 32)) := by
  unfold unpackFileHeader at hu
  cases h1 : readBytes 4 bs with
  | error e => rw [h1, except_bind_error] at hu; simp at hu
  | ok p1 =>
  obtain ⟨sig, bs1⟩ := p1
  rw [h1, except_bind_ok] at hu
  dsimp only at hu
  cases h2 : readU32 bs1 with
  | error e => rw [h2, except_bind_error] at hu; simp at hu
  | ok p2 =>
  obtain ⟨w, bs2⟩ := p2
  rw [h2, except_bind_ok] at hu
  dsimp only at hu
  cases h3 : readU32 bs2 with
  | error e => rw [h3, except_bind_error] at hu; simp at hu
  | ok p3 =>
  obtain ⟨x, bs3⟩ := p3
  rw [h3, except_bind_ok] at hu
  dsimp only at hu
  cases h4 : readU32 bs3 with
  | error e => rw [h4, except_bind_error] at hu; simp at hu
  | ok p4 =>
  obtain ⟨n, bs4⟩ := p4
  rw [h4, except_bind_ok] at hu
  dsimp only at hu
  cases h5 : readI32 bs4 with
  | error e => rw [h5, except_bind_error] at hu; simp at hu
  | ok p5 =>
  obtain ⟨r, bs5⟩ := p5
  rw [h5, except_bind_ok] at hu
  dsimp only at hu
  cases h6 : readU32 bs5 with
  | error e => rw [h6, except_bind_error] at hu; simp at hu
  | ok p6 =>
  obtain ⟨fl, bs6⟩ := p6
  rw [h6, except_bind_ok] at hu
  dsimp only at hu
  cases h7 : readU32s 7 bs6 with
  | error e => rw [h7, except_bind_error] at hu; simp at hu
  | ok p7 =>
  obtain ⟨audio, bs7⟩ := p7
  rw [h7, except_bind_ok] at hu
  dsimp only at hu
  cases h8 : readU32 bs7 with
  | error e => rw [h8, except_bind_error] at hu; simp at hu
  | ok p8 =>
  obtain ⟨t1, bs8⟩ := p8
  rw [h8, except_bind_ok] at hu
  dsimp only at hu
  cases h9 : readU32 bs8 with
  | error e => rw [h9, except_bind_error] at hu; simp at hu
  | ok p9 =>
  obtain ⟨t2, bs9⟩ := p9
  rw [h9, except_bind_ok] at hu
  dsimp only at hu
  cases h10 : readU32 bs9 with
  | error e => rw [h10, except_bind_error] at hu; simp at hu
  | ok p10 =>
  obtain ⟨t3, bs10⟩ := p10
  rw [h10, except_bind_ok] at hu
  dsimp only at hu
  cases h11 : readU32 bs10 with
  | error e => rw [h11, except_bind_error] at hu; simp at hu
  | ok p11 =>
  obtain ⟨t4, bs11⟩ := p11
  rw [h11, except_bind_ok] at hu
  dsimp only at hu
  cases h12 : readU32 bs11 with
  | error e => rw [h12, except_bind_error] at hu; simp at hu
  | ok p12 =>
  obtain ⟨t5, bs12⟩ := p12
  rw [h12, except_bind_ok] at hu
  dsimp only at hu
  cases h13 : readU32s 7 bs12 with
  | error e => rw [h13, except_bind_error] at hu; simp at hu
  | ok p13 =>
  obtain ⟨tracks, bs13⟩ := p13
  rw [h13, except_bind_ok] at hu
  dsimp only at hu
  cases h14 : readU32 bs13 with
  | error e => rw [h14, except_bind_error] at hu; simp at hu
  | ok p14 =>
  obtain ⟨pad, bs14⟩ := p14
  rw [h14, except_bind_ok] at hu
  dsimp only at hu
  cases h15 : readU32s n bs14 with
  | error e => rw [h15, except_bind_error] at hu; simp at hu
  | ok p15 =>
  obtain ⟨sizes, bs15⟩ := p15
  rw [h15, except_bind_ok] at hu
  dsimp only at hu
  cases h16 : readBytes n bs15 with
  | error e => rw [h16, except_bind_error] at hu; simp at hu
  | ok p16 =>
  obtain ⟨types, bs16⟩ := p16
  rw [h16, except_bind_ok] at hu
  dsimp only at hu
  obtain ⟨hfh, hrest⟩ :
      ({ signature := sig, width := w, height := x, nFrames := n, frameRate := r,
         flags := fl, audioSize := audio, treesSize := t1, mmapSize := t2,
         mclrSize := t3, fullSize := t4, typeSize := t5, trackInfo := tracks,
         frameSizes := sizes, frameTypes := types } : FileHeader) = hh ∧
      bs16 = rest := by
    simpa using hu
  subst hfh
  subst hrest
  dsimp only
  obtain ⟨hsl, hbs⟩ := readBytes_ok 4 bs sig bs1 h1
  obtain ⟨s0, s1, s2, s3, rfl⟩ := length_four_shape sig hsl
  obtain ⟨w0, w1, w2, w3, hbs1, hw⟩ := readU32_ok bs1 w bs2 h2
  obtain ⟨x0, x1, x2, x3, hbs2, hx⟩ := readU32_ok bs2 x bs3 h3
  obtain ⟨n0, n1, n2, n3, hbs3, hn⟩ := readU32_ok bs3 n bs4 h4
  obtain ⟨u5, hu5⟩ := readI32_ok bs4 r bs5 h5
  obtain ⟨r0, r1, r2, r3, hbs4, -⟩ := readU32_ok bs4 u5 bs5 hu5
  obtain ⟨f0, f1, f2, f3, hbs5, hfl⟩ := readU32_ok bs5 fl bs6 h6
  obtain ⟨hal, hlen6, hmem6, hbound6⟩ := readU32s_ok 7 bs6 audio bs7 h7
  obtain ⟨c0, c1, c2, c3, hbs7, ht1⟩ := readU32_ok bs7 t1 bs8 h8
  obtain ⟨d0, d1, d2, d3, hbs8, ht2⟩ := readU32_ok bs8 t2 bs9 h9
  obtain ⟨e0, e1, e2, e3, hbs9, ht3⟩ := readU32_ok bs9 t3 bs10 h10
  obtain ⟨g0, g1, g2, g3, hbs10, ht4⟩ := readU32_ok bs10 t4 bs11 h11
  obtain ⟨i0, i1, i2, i3, hbs11, ht5⟩ := readU32_ok bs11 t5 bs12 h12
  obtain ⟨htl, hlen12, hmem12, hbound12⟩ := readU32s_ok 7 bs12 tracks bs13 h13
  obtain ⟨p0, p1', p2', p3', hbs13, -⟩ := readU32_ok bs13 pad bs14 h14
  obtain ⟨hfsl, hlen14, hmem14, hbound14⟩ := readU32s_ok n bs14 sizes bs15 h15
  obtain ⟨hftl, hbs15⟩ := readBytes_ok n bs15 types bs16 h16
  subst hbs1
  subst hbs2
  subst hbs3
  subst hbs4
  subst hbs5
  subst hbs7
  subst hbs8
  subst hbs9
  subst hbs10
  subst hbs11
  subst hbs13
  subst hbs15
  subst hbs
  simp only [List.length_cons, List.length_append] at hlen6 hlen12 hlen14
  refine ⟨?_, ?_, hal, htl, hfsl, hftl, ?_⟩
  · simp only [List.length_append, List.length_cons, List.length_nil]
    omega
  · simp only [List.cons_append, List.nil_append, List.drop_succ_cons, List.drop_zero]
    simpa [le32] using hn
  · intro hb
    have hb6 : ∀ b ∈ bs6, b < 2 ^ 8 := fun b hbm => hb b (by simp [hbm])
    have hb12 : ∀ b ∈ bs12, b < 2 ^ 8 := fun b hbm => hb6 b (hmem6 b (by simp [hbm]))
    have hb14 : ∀ b ∈ bs14, b < 2 ^ 8 := fun b hbm => hb12 b (hmem12 b (by simp [hbm]))
    have hw0 : w0 < 2 ^ 8 := hb w0 (by simp)
    have hw1 : w1 < 2 ^ 8 := hb w1 (by simp)
    have hw2 : w2 < 2 ^ 8 := hb w2 (by simp)
    have hw3 : w3 < 2 ^ 8 := hb w3 (by simp)
    have hx0 : x0 < 2 ^ 8 := hb x0 (by simp)
    have hx1 : x1 < 2 ^ 8 := hb x1 (by simp)
    have hx2 : x2 < 2 ^ 8 := hb x2 (by simp)
    have hx3 : x3 < 2 ^ 8 := hb x3 (by simp)
    have hn0 : n0 < 2 ^ 8 := hb n0 (by simp)
    have hn1 : n1 < 2 ^ 8 := hb n1 (by simp)
    have hn2 : n2 < 2 ^ 8 := hb n2 (by simp)
    have hn3 : n3 < 2 ^ 8 := hb n3 (by simp)
    have hf0 : f0 < 2 ^ 8 := hb f0 (by simp)
    have hf1 : f1 < 2 ^ 8 := hb f1 (by simp)
    have hf2 : f2 < 2 ^ 8 := hb f2 (by simp)
    have hf3 : f3 < 2 ^ 8 := hb f3 (by simp)
    have hc0 : c0 < 2 ^ 8 := hb6 c0 (hmem6 c0 (by simp))
    have hc1 : c1 < 2 ^ 8 := hb6 c1 (hmem6 c1 (by simp))
    have hc2 : c2 < 2 ^ 8 := hb6 c2 (hmem6 c2 (by simp))
    have hc3 : c3 < 2 ^ 8 := hb6 c3 (hmem6 c3 (by simp))
    have hd0 : d0 < 2 ^ 8 := hb6 d0 (hmem6 d0 (by simp))
    have hd1 : d1 < 2 ^ 8 := hb6 d1 (hmem6 d1 (by simp))
    have hd2 : d2 < 2 ^ 8 := hb6 d2 (hmem6 d2 (by simp))
    have hd3 : d3 < 2 ^ 8 := hb6 d3 (hmem6 d3 (by simp))
    have he0 : e0 < 2 ^ 8 := hb6 e0 (hmem6 e0 (by simp))
    have he1 : e1 < 2 ^ 8 := hb6 e1 (hmem6 e1 (by simp))
    have he2 : e2 < 2 ^ 8 := hb6 e2 (hmem6 e2 (by simp))
    have he3 : e3 < 2 ^ 8 := hb6 e3 (hmem6 e3 (by simp))
    have hg0 : g0 < 2 ^ 8 := hb6 g0 (hmem6 g0 (by simp))
    have hg1 : g1 < 2 ^ 8 := hb6 g1 (hmem6 g1 (by simp))
    have hg2 : g2 < 2 ^ 8 := hb6 g2 (hmem6 g2 (by simp))
    have hg3 : g3 < 2 ^ 8 := hb6 g3 (hmem6 g3 (by simp))
    have hi0 : i0 < 2 ^ 8 := hb6 i0 (hmem6 i0 (by simp))
    have hi1 : i1 < 2 ^ 8 := hb6 i1 (hmem6 i1 (by simp))
    have hi2 : i2 < 2 ^ 8 := hb6 i2 (hmem6 i2 (by simp))
    have hi3 : i3 < 2 ^ 8 := hb6 i3 (hmem6 i3 (by simp))
    exact ⟨by omega, by omega, by omega, by omega, hbound6 hb6, by omega, by omega,
      by omega, by omega, by omega, hbound12 hb12, hbound14 hb14⟩

/-! ### Bitfield accessor lemmas -/

/-- A single-bit mask test is the corresponding `testBit`. -/
theorem and_two_pow_ne_zero (u i : Nat) : (u &&& 2 ^ i ≠ 0) ↔ u.testBit i = true := by
  rw [Nat.and_two_pow]
  cases h : u.testBit i <;> simp [h]

/-- `IsCompressed` tests bit 31. -/
theorem isCompressed_eq_testBit (u : Nat) :
    TrackInfo.IsCompressed u = u.testBit 31 := by
  unfold TrackInfo.IsCompressed
  rw [show (0x80000000 : Nat) = 2 ^ 31 by norm_num, Nat.and_two_pow]
  cases h : u.testBit 31 <;> simp [h]

/-- `HasAudioData` tests bit 30. -/
theorem hasAudioData_eq_testBit (u : Nat) :
    TrackInfo.HasAudioData u = u.testBit 30 := by
  unfold TrackInfo.HasAudioData
  rw [show (0x40000000 : Nat) = 2 ^ 30 by norm_num, Nat.and_two_pow]
  cases h : u.testBit 30 <;> simp [h]

/-- `BitRate` is decided by bit 29. -/
theorem bitRate_eq_testBit (u : Nat) :
    TrackInfo.BitRate u = if u.testBit 29 then 16 else 8 := by
  unfold TrackInfo.BitRate
  rw [show (0x20000000 : Nat) = 2 ^ 29 by norm_num]
  rcases h : u.testBit 29 with _ | _
  · have hz : u &&& 2 ^ 29 = 0 := by rw [Nat.and_two_pow, h]; rfl
    have hnz : ¬u &&& 2 ^ 29 ≠ 0 := fun hc => hc hz
    rw [if_neg hnz, if_neg (by simp [h])]
  · rw [if_pos ((and_two_pow_ne_zero u 29).mpr h), if_pos (by simp [h])]

/-- `NChannels` is decided by bit 28. -/
theorem nChannels_eq_testBit (u : Nat) :
    TrackInfo.NChannels u = if u.testBit 28 then 2 else 1 := by
  unfold TrackInfo.NChannels
  rw [show (0x10000000 : Nat) = 2 ^ 28 by norm_num]
  rcases h : u.testBit 28 with _ | _
  · have hz : u &&& 2 ^ 28 = 0 := by rw [Nat.and_two_pow, h]; rfl
    have hnz : ¬u &&& 2 ^ 28 ≠ 0 := fun hc => hc hz
    rw [if_neg hnz, if_neg (by simp [h])]
  · rw [if_pos ((and_two_pow_ne_zero u 28).mpr h), if_pos (by simp [h])]

/-- `IsVersion2` is decided by bits 27 and 26. -/
theorem isVersion2_eq_testBit (u : Nat) :
    TrackInfo.IsVersion2 u = (!u.testBit 27 && !u.testBit 26) := by
  unfold TrackInfo.IsVersion2
  have hd : u &&& 0xC000000 = (u &&& 2 ^ 26) ||| (u &&& 2 ^ 27) := by
    refine Nat.eq_of_testBit_eq fun i => ?_
    rw [show (0xC000000 : Nat) = 2 ^ 26 ||| 2 ^ 27 by decide, Nat.testBit_and,
      Nat.testBit_lor, Nat.testBit_lor, Nat.testBit_and, Nat.testBit_and,
      Bool.and_or_distrib_left]
  rw [hd, Nat.and_two_pow, Nat.and_two_pow]
  cases h26 : u.testBit 26 <;> cases h27 : u.testBit 27 <;> simp [h26, h27]

/-- `SampleRate` is reduction modulo `2 ^ 24`. -/
theorem sampleRate_eq_mod (u : Nat) : TrackInfo.SampleRate u = u % 2 ^ 24 := by
  unfold TrackInfo.SampleRate
  rw [show (0xFFFFFF : Nat) = 2 ^ 24 - 1 by norm_num]
  refine Nat.eq_of_testBit_eq fun i => ?_
  rw [Nat.testBit_and, Nat.testBit_mod_two_pow, Nat.testBit_two_pow_sub_one, Bool.and_comm]

/-! ### Claim theorems: pure bitfield semantics -/

/-- C4: `FPS` is total over the signed 32-bit range with no error path;
it returns `1000 / r` for positive `r`, `100000 / (-r)` for negative `r`,
and `10` for `r = 0`, all with exact (non-truncating) division; in
particular `FPS 0 = 10`, `FPS 1000 = 1`, `FPS (-100000) = 1` and
`FPS 2000 = 1/2`. -/
theorem fps_spec (r : FrameRate) (hlo : -(2 ^ 31) ≤ r) (hhi : r < 2 ^ 31) :
    (0 < r → FrameRate.FPS r = 1000 / (r : ℚ)) ∧
    (r < 0 → FrameRate.FPS r = 100000 / (-(r : ℚ))) ∧
    (r = 0 → FrameRate.FPS r = 10) ∧
    FrameRate.FPS 0 = 10 ∧ FrameRate.FPS 1000 = 1 ∧
    FrameRate.FPS (-100000) = 1 ∧ FrameRate.FPS 2000 = 1 / 2 := by
  refine ⟨?_, ?_, ?_, ?_, ?_, ?_, ?_⟩
  · intro h
    rw [FrameRate.FPS, if_pos h]
  · intro h
    have hnp : ¬r > 0 := fun hp => lt_irrefl 0 (hp.trans h)
    rw [FrameRate.FPS, if_neg hnp, if_pos h]
  · intro h
    subst h
    rfl
  · rfl
  · norm_num [FrameRate.FPS]
  · norm_num [FrameRate.FPS]
  · norm_num [FrameRate.FPS]

/-- C4 witness: the theorem applied at `r = 2000`. -/
theorem fps_spec_witness : FrameRate.FPS 2000 = 1 / 2 :=
  (fps_spec 2000 (by decide) (by decide)).2.2.2.2.2.2

/-- C5: for every 32-bit track descriptor, `IsCompressed` is bit 31,
`HasAudioData` is bit 30, `BitRate` is 16/8 by bit 29, `NChannels` is
2/1 by bit 28, `IsVersion2` holds iff bits 27 and 26 are both clear,
`SampleRate` is the low 24 bits, and bits 25-24 affect no accessor. -/
theorem trackInfo_accessor_spec (u : TrackInfo) (_hu : u < 2 ^ 32) :
    (TrackInfo.IsCompressed u = u.testBit 31) ∧
    (TrackInfo.HasAudioData u = u.testBit 30) ∧
    (TrackInfo.BitRate u = if u.testBit 29 then 16 else 8) ∧
    (TrackInfo.NChannels u = if u.testBit 28 then 2 else 1) ∧
    (TrackInfo.IsVersion2 u = (!u.testBit 27 && !u.testBit 26)) ∧
    (TrackInfo.SampleRate u = u % 2 ^ 24) ∧
    (∀ v : TrackInfo, (∀ i : Nat, i ≠ 24 → i ≠ 25 → u.testBit i = v.testBit i) →
      TrackInfo.IsCompressed u = TrackInfo.IsCompressed v ∧
      TrackInfo.HasAudioData u = TrackInfo.HasAudioData v ∧
      TrackInfo.BitRate u = TrackInfo.BitRate v ∧
      TrackInfo.NChannels u = TrackInfo.NChannels v ∧
      TrackInfo.IsVersion2 u = TrackInfo.IsVersion2 v ∧
      TrackInfo.SampleRate u = TrackInfo.SampleRate v) := by
  refine ⟨isCompressed_eq_testBit u, hasAudioData_eq_testBit u, bitRate_eq_testBit u,
    nChannels_eq_testBit u, isVersion2_eq_testBit u, sampleRate_eq_mod u, ?_⟩
  intro v hv
  have hmod : u % 2 ^ 24 = v % 2 ^ 24 := by
    refine Nat.eq_of_testBit_eq fun i => ?_
    rw [Nat.testBit_mod_two_pow, Nat.testBit_mod_two_pow]
    by_cases hi : i < 24
    · rw [hv i (by omega) (by omega)]
    · simp [hi]
  refine ⟨?_, ?_, ?_, ?_, ?_, ?_⟩
  · rw [isCompressed_eq_testBit, isCompressed_eq_testBit, hv 31 (by omega) (by omega)]
  · rw [hasAudioData_eq_testBit, hasAudioData_eq_testBit, hv 30 (by omega) (by omega)]
  · rw [bitRate_eq_testBit, bitRate_eq_testBit, hv 29 (by omega) (by omega)]
  · rw [nChannels_eq_testBit, nChannels_eq_testBit, hv 28 (by omega) (by omega)]
  · rw [isVersion2_eq_testBit, isVersion2_eq_testBit, hv 27 (by omega) (by omega),
      hv 26 (by omega) (by omega)]
  · rw [sampleRate_eq_mod, sampleRate_eq_mod, hmod]

/-- C5 witness: the theorem applied at `u = 0xC0000000`. -/
theorem trackInfo_accessor_spec_witness :
    TrackInfo.IsCompressed 0xC0000000 = Nat.testBit 0xC0000000 31 :=
  (trackInfo_accessor_spec 0xC0000000 (by decide)).1

/-- C6: bit 0 is the palette record and bit `N + 1` is audio data for
track `N` for `N` in `0..6`; the eight constants are pairwise distinct
single-bit masks. -/
theorem frameType_constants_spec :
    FrameTypePaletteRecord = 0x01 ∧
    (∀ N : Fin 7, FrameTypeAudioDataTrack N = 1 <<< ((N : Nat) + 1)) ∧
    FrameTypePaletteRecord = 1 <<< 0 ∧
    (∀ N M : Fin 7, N ≠ M → FrameTypeAudioDataTrack N ≠ FrameTypeAudioDataTrack M) ∧
    (∀ N : Fin 7, FrameTypePaletteRecord ≠ FrameTypeAudioDataTrack N) := by
  decide

/-- C7 counterexample: the raw frame-type value `0x82` does not have the
palette-record flag set (bit 0 of `0x82` is clear), so its content flags
are not "palette record and audio data for track 0". -/
theorem frameType_0x82_counterexample :
    ¬ ((0x82 &&& FrameTypePaletteRecord ≠ 0) ∧
       (0x82 &&& FrameTypeAudioDataTrack0 ≠ 0) ∧
       (∀ N : Fin 7, (N : Nat) ≠ 0 → 0x82 &&& FrameTypeAudioDataTrack N = 0)) := by
  decide

/-- C7 amended: raw `0x01` sets only the palette-record flag; raw `0x82`
sets exactly the audio-data flags for track 0 and track 6, and not the
palette-record flag. -/
theorem frameType_samples_spec :
    ((0x01 &&& FrameTypePaletteRecord ≠ 0) ∧
     (∀ N : Fin 7, 0x01 &&& FrameTypeAudioDataTrack N = 0)) ∧
    ((0x82 &&& FrameTypePaletteRecord = 0) ∧
     (0x82 &&& FrameTypeAudioDataTrack0 ≠ 0) ∧
     (0x82 &&& FrameTypeAudioDataTrack6 ≠ 0) ∧
     (∀ N : Fin 7, (N : Nat) ≠ 0 → (N : Nat) ≠ 6 →
       0x82 &&& FrameTypeAudioDataTrack N = 0)) := by
  decide

/-! ### Claim theorems: the header layout decoder and the container -/

/-- A successful `parseFileHeader` is a successful unpack of the same
stream with the same header and remainder. -/
theorem parseFileHeader_ok (bs : List Nat) (h : FileHeader) (r : List Nat)
    (hp : parseFileHeader bs = .ok (h, r)) : unpackFileHeader bs = .ok (h, r) := by
  unfold parseFileHeader at hp
  cases hu : unpackFileHeader bs with
  | error e => rw [hu] at hp; simp at hp
  | ok p =>
    obtain ⟨h', r'⟩ := p
    rw [hu] at hp
    dsimp only at hp
    split at hp
    · obtain ⟨rfl, rfl⟩ : h' = h ∧ r' = r := by simpa using hp
      rfl
    · simp at hp

/-- C1: encoding any well-formed header fields whose signature is "SMK2"
or "SMK4" according to the §4.2 layout and decoding the bytes with
`parseFileHeader`/`Parse` succeeds and reproduces every field exactly. -/
theorem roundtrip_spec (h : FileHeader) (hwf : WellFormed h)
    (hsig : h.signature = smk2Signature ∨ h.signature = smk4Signature) :
    parseFileHeader (encodeFileHeader h) = .ok (h, []) ∧
    ∀ c, Parse (encodeFileHeader h) c = .ok { header := h, rest := [], c := c } := by
  obtain ⟨hsl, hsb, hwd, hht, hnf, hrlo, hrhi, hfl, hal, hab, hts, hms, hcs, hfs,
    hys, htl, htb, hfsl, hfsb, hftl, hftb⟩ := hwf
  have hun : unpackFileHeader (encodeFileHeader h) = .ok (h, []) := by
    unfold unpackFileHeader encodeFileHeader
    simp only [List.append_assoc]
    rw [readBytes_of_length 4 h.signature _ hsl, except_bind_ok]
    dsimp only
    rw [readU32_encodeU32 _ _ hwd, except_bind_ok]
    dsimp only
    rw [readU32_encodeU32 _ _ hht, except_bind_ok]
    dsimp only
    rw [readU32_encodeU32 _ _ hnf, except_bind_ok]
    dsimp only
    rw [readI32_encodeI32 _ _ hrlo hrhi, except_bind_ok]
    dsimp only
    rw [readU32_encodeU32 _ _ hfl, except_bind_ok]
    dsimp only
    rw [readU32s_of_length 7 h.audioSize _ hal hab, except_bind_ok]
    dsimp only
    rw [readU32_encodeU32 _ _ hts, except_bind_ok]
    dsimp only
    rw [readU32_encodeU32 _ _ hms, except_bind_ok]
    dsimp only
    rw [readU32_encodeU32 _ _ hcs, except_bind_ok]
    dsimp only
    rw [readU32_encodeU32 _ _ hfs, except_bind_ok]
    dsimp only
    rw [readU32_encodeU32 _ _ hys, except_bind_ok]
    dsimp only
    rw [readU32s_of_length 7 h.trackInfo _ htl htb, except_bind_ok]
    dsimp only
    rw [readU32_encodeU32 0 _ (by norm_num), except_bind_ok]
    dsimp only
    rw [readU32s_of_length h.nFrames h.frameSizes _ hfsl hfsb, except_bind_ok]
    dsimp only
    rw [readBytes_all h.nFrames h.frameTypes hftl, except_bind_ok]
  have hp : parseFileHeader (encodeFileHeader h) = .ok (h, []) := by
    unfold parseFileHeader
    rw [hun]
    dsimp only
    rw [if_pos hsig]
  exact ⟨hp, fun c => by unfold Parse; rw [hp]⟩

/-- C1 witness: the theorem applied to `sampleHeader`. -/
theorem roundtrip_spec_witness :
    parseFileHeader (encodeFileHeader sampleHeader) = .ok (sampleHeader, []) :=
  (roundtrip_spec sampleHeader (by unfold WellFormed; decide) (Or.inl rfl)).1

/-- C2: whenever the layout decodes but the signature is neither "SMK2"
nor "SMK4", decoding fails with the malformed-signature error and
`Parse` returns no `File`. -/
theorem invalid_signature_spec (bs : List Nat) (h : FileHeader) (r : List Nat)
    (hu : unpackFileHeader bs = .ok (h, r))
    (h2 : h.signature ≠ smk2Signature) (h4 : h.signature ≠ smk4Signature) :
    parseFileHeader bs = .error (.invalidSignature h.signature) ∧
    ∀ c, Parse bs c = .error (.invalidSignature h.signature) := by
  have hp : parseFileHeader bs = .error (.invalidSignature h.signature) := by
    unfold parseFileHeader
    rw [hu]
    dsimp only
    rw [if_neg (fun hor => hor.elim h2 h4)]
  exact ⟨hp, fun c => by unfold Parse; rw [hp]⟩

/-- C2 witness: the theorem applied to the all-zero 104-byte stream. -/
theorem invalid_signature_spec_witness :
    parseFileHeader zeroBytes = .error (.invalidSignature zeroHeader.signature) :=
  (invalid_signature_spec zeroBytes zeroHeader [] (by rfl) (by decide) (by decide)).1

/-- C3: a stream shorter than the §4.2 layout requires for its decoded
frame count (the little-endian word at offset 12) fails with the
truncation error, and `Parse` returns no `File`: a partial header is
never produced. -/
theorem truncation_spec (bs : List Nat)
    (hshort : bs.length < 104 + 5 * le32 (bs.drop 12)) :
    parseFileHeader bs = .error .truncated ∧
    ∀ c, Parse bs c = .error .truncated := by
  have hp : parseFileHeader bs = .error .truncated := by
    unfold parseFileHeader
    cases hu : unpackFileHeader bs with
    | ok p =>
      obtain ⟨h, r⟩ := p
      obtain ⟨hlen, hn, -⟩ := unpackFileHeader_ok_facts bs h r hu
      rw [← hn] at hshort
      exact absurd hlen (by omega)
    | error e =>
      have ht := unpackFileHeader_onlyTruncated bs
      rw [hu] at ht
      have he : e = Error.truncated := ht
      rw [he]
  exact ⟨hp, fun c => by unfold Parse; rw [hp]⟩

/-- C3 witness: the theorem applied to the 103-byte all-zero stream. -/
theorem truncation_spec_witness :
    parseFileHeader shortBytes = .error .truncated :=
  (truncation_spec shortBytes (by decide)).1

/-- C8: every successfully decoded header has `frameSizes` and
`frameTypes` of length exactly `nFrames`. -/
theorem frame_array_length_spec (bs : List Nat) (h : FileHeader) (r : List Nat)
    (hp : parseFileHeader bs = .ok (h, r)) :
    h.frameSizes.length = h.nFrames ∧ h.frameTypes.length = h.nFrames := by
  obtain ⟨-, -, -, -, hfs, hft, -⟩ :=
    unpackFileHeader_ok_facts bs h r (parseFileHeader_ok bs h r hp)
  exact ⟨hfs, hft⟩

/-- C8 witness: the theorem applied to `goodBytes`. -/
theorem frame_array_length_spec_witness :
    goodHeader.frameSizes.length = goodHeader.nFrames ∧
    goodHeader.frameTypes.length = goodHeader.nFrames :=
  frame_array_length_spec goodBytes goodHeader [] (by rfl)

/-- C10: in every header decoded from a byte stream, each field decoded
from an unsigned 32-bit layout value (width, height, nFrames, the 7
audio sizes, the five Huffman size hints, and every frame size) is
strictly less than `2 ^ 32` (the fields are `Nat` in this model, so they
are non-negative by construction). -/
theorem decoded_bounds_spec (bs : List Nat) (h : FileHeader) (r : List Nat)
    (hb : ∀ b ∈ bs, b < 2 ^ 8) (hp : parseFileHeader bs = .ok (h, r)) :
    h.width < 2 ^ 32 ∧ h.height < 2 ^ 32 ∧ h.nFrames < 2 ^ 32 ∧
    (∀ x ∈ h.audioSize, x < 2 ^ 32) ∧ h.treesSize < 2 ^ 32 ∧
    h.mmapSize < 2 ^ 32 ∧ h.mclrSize < 2 ^ 32 ∧ h.fullSize < 2 ^ 32 ∧
    h.typeSize < 2 ^ 32 ∧ (∀ x ∈ h.frameSizes, x < 2 ^ 32) := by
  obtain ⟨-, -, -, -, -, -, hbound⟩ :=
    unpackFileHeader_ok_facts bs h r (parseFileHeader_ok bs h r hp)
  obtain ⟨hw, hx, hn, -, ha, ht, hm, hc, hf, hy, -, hs⟩ := hbound hb
  exact ⟨hw, hx, hn, ha, ht, hm, hc, hf, hy, hs⟩

/-- C10 witness: the theorem applied to `goodBytes`. -/
theorem decoded_bounds_spec_witness : goodHeader.width < 2 ^ 32 :=
  (decoded_bounds_spec goodBytes goodHeader [] (by decide) (by rfl)).1

/-- C9 counterexample: a `File` whose attached closer reports an error
on its second close call; `Close` delegates unconditionally, so the
second `Close` returns an error. -/
theorem close_twice_counterexample : sampleClosedFile.Close 1 ≠ none := by
  simp [sampleClosedFile, File.Close, fileLikeCloser]

/-- C9 amended: a `File` parsed from a reader with no attached closer
returns success from `Close` however many times it is called; when a
closer is attached, each `Close` call returns exactly what the closer
returns for that call, with no idempotence guard added by `File`. -/
theorem close_delegation_spec (bs : List Nat) (f : File) (k : Nat)
    (hp : Parse bs none = .ok f) :
    f.Close k = none ∧
    ∀ c g, Parse bs (some c) = .ok g → g.Close k = c.closeResult k := by
  cases hq : parseFileHeader bs with
  | error e =>
    unfold Parse at hp
    rw [hq] at hp
    simp at hp
  | ok p =>
    obtain ⟨h, r⟩ := p
    unfold Parse at hp
    rw [hq] at hp
    dsimp only at hp
    have hf : ({ header := h, rest := r, c := none } : File) = f := by simpa using hp
    subst hf
    refine ⟨rfl, ?_⟩
    intro c g hg
    unfold Parse at hg
    rw [hq] at hg
    dsimp only at hg
    have hg' : ({ header := h, rest := r, c := some c } : File) = g := by simpa using hg
    subst hg'
    rfl

/-- C9 witness: the amended theorem applied to `goodBytes`. -/
theorem close_delegation_spec_witness :
    File.Close { header := goodHeader, rest := [], c := none } 5 = none :=
  (close_delegation_spec goodBytes { header := goodHeader, rest := [], c := none } 5
    (by rfl)).1

end smk
